import Mathlib

/-!
Verification of the Office365 impossible-travel detection engine.

The development embeds, as executable Lean definitions, the login-pattern
analysis engine (`services/impossible_travel.py`, `ImpossibleTravelDetector.analyze`)
and the bounded per-user history store (`services/database.py`, `DatabaseService`:
`add_login`, `get_recent_logins`, `get_last_login`, `purge_database`, `get_stats`).

Conventions of the embedding:
- Python floats are modelled as `ℚ`; machine timestamps as integer microseconds.
- Fallible Python code is modelled with `Except String`/`Option`; an uncaught
  exception corresponds to `Except.error`.
- The SQLite table `login_history` is a list of rows carrying the AUTOINCREMENT
  `id`; `ORDER BY timestamp` on the TEXT column is byte-wise (lexicographic)
  string comparison, which for the ASCII strings involved coincides with
  Lean's `String` linear order.  SQL leaves the relative order of rows with
  equal `timestamp` unspecified; the model fixes ascending `id` as the
  tie-break, and every theorem about ordering is stated so that it does not
  depend on that choice.
- The external dependencies (the geolocation resolver and geopy's `geodesic`)
  are parameters of `analyze`: the resolver's outcome is passed as an
  `Option LocationInfo`, and the distance function as a `GeoFn` that may fail,
  mirroring a raised exception.
-/

namespace OfficeTravel

/-! ## Model of CPython `datetime.fromisoformat` (as used with a `Z` replacement)

`analyze` parses timestamps with `datetime.fromisoformat(s.replace("Z", "+00:00"))`.
The grammar modelled here is CPython's `fromisoformat` (pre-3.11 C implementation):
`YYYY-MM-DD` optionally followed by one arbitrary separator character (the
character at index 10 is skipped without inspection) and a time
`HH[:MM[:SS[.fff[fff]]]]`, optionally followed by an offset introduced by the
first `+` or `-` found in the time part, of shape `HH:MM`, `HH:MM:SS` or
`HH:MM:SS.ffffff`.  Python's `int` leniency towards whitespace/signs inside a
two-digit field is not modelled (such strings are irrelevant to every claim);
component fields are plain decimal digits. -/

/-- A parsed Python `datetime`: calendar fields plus an optional
UTC offset in microseconds (`none` models a timezone-naive value). -/
structure PyDatetime where
  year : Nat
  month : Nat
  day : Nat
  hour : Nat
  minute : Nat
  second : Nat
  microsecond : Nat
  tzOffsetMicros : Option Int
deriving DecidableEq

/-- Decimal digit test on a character. -/
def charIsDigit (c : Char) : Bool := 48 ≤ c.toNat && c.toNat ≤ 57

/-- Numeric value of a decimal digit character. -/
def digitVal (c : Char) : Nat := c.toNat - 48

/-- Both characters are decimal digits. -/
def digits2 (a b : Char) : Bool := charIsDigit a && charIsDigit b

/-- Value of a two-digit decimal field. -/
def val2 (a b : Char) : Nat := 10 * digitVal a + digitVal b

/-- Value of a digit list read in base 10. -/
def digitsToNat (cs : List Char) : Nat := cs.foldl (fun a c => a * 10 + digitVal c) 0

/-- Gregorian leap-year rule (Python `calendar.isleap`). -/
def isLeap (y : Nat) : Bool := y % 4 == 0 && (y % 100 != 0 || y % 400 == 0)

/-- Length of a month, matching Python's `datetime` validation. -/
def daysInMonth (y m : Nat) : Nat :=
  if m = 2 then (if isLeap y then 29 else 28)
  else if m = 4 ∨ m = 6 ∨ m = 9 ∨ m = 11 then 30
  else 31

/-- Days in the months strictly before month `m` of year `y`. -/
def daysBeforeMonth (y m : Nat) : Nat :=
  let base :=
    if m ≤ 1 then 0 else if m = 2 then 31 else if m = 3 then 59 else if m = 4 then 90
    else if m = 5 then 120 else if m = 6 then 151 else if m = 7 then 181
    else if m = 8 then 212 else if m = 9 then 243 else if m = 10 then 273
    else if m = 11 then 304 else 334
  if 3 ≤ m ∧ isLeap y then base + 1 else base

/-- Proleptic Gregorian ordinal of a date (Python `datetime.toordinal`):
day 1 is 0001-01-01. -/
def toOrdinal (y m d : Nat) : Nat :=
  let py := y - 1
  365 * py + py / 4 + py / 400 - py / 100 + daysBeforeMonth y m + d

/-- Wall-clock microseconds of a datetime, ignoring its offset. -/
def wallMicros (t : PyDatetime) : Int :=
  ((toOrdinal t.year t.month t.day * 86400 + t.hour * 3600 + t.minute * 60 + t.second : Nat) : Int)
    * 1000000 + (t.microsecond : Int)

/-- Absolute instant of an aware datetime (wall clock minus UTC offset);
for a naive datetime this is just the wall clock. -/
def instantMicros (t : PyDatetime) : Int :=
  wallMicros t - (t.tzOffsetMicros.getD 0)

/-- Python datetime subtraction, in microseconds.  Subtracting a naive from an
aware datetime (or conversely) raises `TypeError` in Python; this is the
`Except.error` case. -/
def pySub (a b : PyDatetime) : Except String Int :=
  match a.tzOffsetMicros, b.tzOffsetMicros with
  | none, none => .ok (wallMicros a - wallMicros b)
  | some _, some _ => .ok (instantMicros a - instantMicros b)
  | _, _ => .error "can\x27t subtract offset-naive and offset-aware datetimes"

/-- Parse the 10-character date part `YYYY-MM-DD`, with calendar validation as
performed by the `datetime` constructor (year 1..9999, month 1..12, day in
range for the month). -/
def parseDateCs : List Char → Option (Nat × Nat × Nat)
  | [y1, y2, y3, y4, '-', m1, m2, '-', d1, d2] =>
    if digits2 y1 y2 && digits2 y3 y4 && digits2 m1 m2 && digits2 d1 d2 then
      let y := 100 * val2 y1 y2 + val2 y3 y4
      let m := val2 m1 m2
      let d := val2 d1 d2
      if 1 ≤ y ∧ 1 ≤ m ∧ m ≤ 12 ∧ 1 ≤ d ∧ d ≤ daysInMonth y m then some (y, m, d) else none
    else none
  | _ => none

/-- Parse `HH[:MM[:SS[.fff[fff]]]]` (Python `_parse_hh_mm_ss_ff`): the
fractional part must have exactly 3 or 6 digits; a 3-digit fraction is in
milliseconds.  Returns `(hour, minute, second, microsecond)` without range
validation (Python validates ranges in the `datetime` constructor). -/
def parseHmsFrac : List Char → Option (Nat × Nat × Nat × Nat)
  | [h1, h2] =>
    if digits2 h1 h2 then some (val2 h1 h2, 0, 0, 0) else none
  | [h1, h2, ':', m1, m2] =>
    if digits2 h1 h2 && digits2 m1 m2 then some (val2 h1 h2, val2 m1 m2, 0, 0) else none
  | [h1, h2, ':', m1, m2, ':', s1, s2] =>
    if digits2 h1 h2 && digits2 m1 m2 && digits2 s1 s2 then
      some (val2 h1 h2, val2 m1 m2, val2 s1 s2, 0)
    else none
  | h1 :: h2 :: ':' :: m1 :: m2 :: ':' :: s1 :: s2 :: '.' :: fs =>
    if digits2 h1 h2 && digits2 m1 m2 && digits2 s1 s2 && fs.all charIsDigit then
      if fs.length = 3 then some (val2 h1 h2, val2 m1 m2, val2 s1 s2, digitsToNat fs * 1000)
      else if fs.length = 6 then some (val2 h1 h2, val2 m1 m2, val2 s1 s2, digitsToNat fs)
      else none
    else none
  | _ => none

/-- Split a time string at the first `+` or `-`, which Python treats as the
start of the UTC offset: returns the part before it and, when found, the sign
character together with the remainder. -/
def splitSign : List Char → List Char × Option (Char × List Char)
  | [] => ([], none)
  | c :: cs =>
    if c = '+' ∨ c = '-' then ([], some (c, cs))
    else
      let p := splitSign cs
      (c :: p.1, p.2)

/-- Parse the time-of-day part including an optional UTC offset
(Python `_parse_isoformat_time` plus the constructor range checks):
the offset string must have length 5, 8 or 15 and the resulting offset must be
strictly below 24 hours in magnitude. -/
def pyParseTime (tcs : List Char) : Option (Nat × Nat × Nat × Nat × Option Int) :=
  let p := splitSign tcs
  match parseHmsFrac p.1 with
  | none => none
  | some (h, mi, s, us) =>
    if h ≤ 23 ∧ mi ≤ 59 ∧ s ≤ 59 then
      match p.2 with
      | none => some (h, mi, s, us, none)
      | some (sgn, tzcs) =>
        if tzcs.length = 5 ∨ tzcs.length = 8 ∨ tzcs.length = 15 then
          match parseHmsFrac tzcs with
          | none => none
          | some (th, tm, tsc, tus) =>
            let mag : Int := ((th * 3600 + tm * 60 + tsc : Nat) : Int) * 1000000 + (tus : Int)
            if mag < 86400000000 then
              some (h, mi, s, us, some ((if sgn = '-' then (-1 : Int) else 1) * mag))
            else none
        else none
    else none

/-- Model of `datetime.fromisoformat`: the first 10 characters are the date,
the character at index 10 (when present) is an uninspected separator, and the
characters from index 11 on are the time part.  Any failure is the single
`ValueError` Python reports for this call. -/
def pyFromIso (s : String) : Except String PyDatetime :=
  let cs := s.data
  match parseDateCs (cs.take 10) with
  | none => .error ("Invalid isoformat string: " ++ s)
  | some (y, m, d) =>
    match cs.drop 10 with
    | [] => .ok ⟨y, m, d, 0, 0, 0, 0, none⟩
    | _ :: tcs =>
      match pyParseTime tcs with
      | none => .error ("Invalid isoformat string: " ++ s)
      | some (h, mi, sec, us, off) => .ok ⟨y, m, d, h, mi, sec, us, off⟩

/-- Model of Python `s.replace("Z", "+00:00")`: every occurrence of the single
character `Z` is expanded. -/
def replaceZchars : List Char → List Char
  | [] => []
  | c :: cs => (if c = 'Z' then ['+', '0', '0', ':', '0', '0'] else [c]) ++ replaceZchars cs

/-- The string-level `Z` replacement used by `analyze`. -/
def replaceZ (s : String) : String := ⟨replaceZchars s.data⟩

/-- Timestamp parsing exactly as `analyze` performs it:
`datetime.fromisoformat(timestamp_str.replace("Z", "+00:00"))`. -/
def parseTimestamp (s : String) : Except String PyDatetime := pyFromIso (replaceZ s)

/-- An `Except` value is a success. -/
def exceptOk {ε α : Type} : Except ε α → Bool
  | .ok _ => true
  | .error _ => false

/-! ## The history store (`services/database.py`)

One row of the `login_history` table; `id` is the AUTOINCREMENT surrogate key. -/

/-- A stored login observation (one row of `login_history`). -/
structure Row where
  id : Nat
  user : String
  ip : String
  country : String
  city : String
  latitude : ℚ
  longitude : ℚ
  timestamp : String
deriving DecidableEq

/-- The table state: rows in insertion order plus the next AUTOINCREMENT id. -/
structure DB where
  rows : List Row
  nextId : Nat
deriving DecidableEq

/-- A freshly initialized database. -/
def emptyDB : DB := ⟨[], 1⟩

/-- The rows belonging to one user (`WHERE user = ?`), in insertion order. -/
def userRows (db : DB) (u : String) : List Row :=
  db.rows.filter fun r => decide (r.user = u)

/-- Lexicographic comparison of character lists by codepoint, which on UTF-8
encodings agrees with SQLite's byte-wise (memcmp) TEXT comparison. -/
def lexLe : List Char → List Char → Bool
  | [], _ => true
  | _ :: _, [] => false
  | a :: as, b :: bs =>
    if a.toNat < b.toNat then true
    else if b.toNat < a.toNat then false
    else lexLe as bs

theorem lexLe_total (a : List Char) : ∀ b, lexLe a b = true ∨ lexLe b a = true := by
  induction a with
  | nil => exact fun b => Or.inl rfl
  | cons x as ih =>
    intro b
    cases b with
    | nil => exact Or.inr rfl
    | cons y bs =>
      simp only [lexLe]
      rcases Nat.lt_trichotomy x.toNat y.toNat with h | h | h
      · left
        rw [if_pos h]
      · simp only [if_neg (show ¬ x.toNat < y.toNat by omega),
          if_neg (show ¬ y.toNat < x.toNat by omega)]
        exact ih bs
      · right
        rw [if_pos h]

theorem lexLe_trans (a : List Char) :
    ∀ b c, lexLe a b = true → lexLe b c = true → lexLe a c = true := by
  induction a with
  | nil => exact fun _ _ _ _ => rfl
  | cons x as ih =>
    intro b c hab hbc
    cases b with
    | nil => simp [lexLe] at hab
    | cons y bs =>
      cases c with
      | nil => simp [lexLe] at hbc
      | cons z cs =>
        simp only [lexLe] at hab hbc ⊢
        rcases Nat.lt_trichotomy x.toNat y.toNat with h1 | h1 | h1
        · rcases Nat.lt_trichotomy y.toNat z.toNat with h2 | h2 | h2
          · rw [if_pos (by omega)]
          · rw [if_pos (by omega)]
          · rw [if_neg (by omega), if_pos h2] at hbc
            exact absurd hbc (by simp)
        · rcases Nat.lt_trichotomy y.toNat z.toNat with h2 | h2 | h2
          · rw [if_pos (by omega)]
          · simp only [if_neg (show ¬ x.toNat < y.toNat by omega),
              if_neg (show ¬ y.toNat < x.toNat by omega)] at hab
            simp only [if_neg (show ¬ y.toNat < z.toNat by omega),
              if_neg (show ¬ z.toNat < y.toNat by omega)] at hbc
            simp only [if_neg (show ¬ x.toNat < z.toNat by omega),
              if_neg (show ¬ z.toNat < x.toNat by omega)]
            exact ih bs cs hab hbc
          · rw [if_neg (by omega), if_pos (by omega)] at hbc
            exact absurd hbc (by simp)
        · rw [if_neg (by omega), if_pos h1] at hab
          exact absurd hab (by simp)

theorem lexLe_refl (a : List Char) : lexLe a a = true := by
  induction a with
  | nil => rfl
  | cons x as ih =>
    simp only [lexLe, if_neg (show ¬ x.toNat < x.toNat by omega)]
    exact ih

/-- The SQLite TEXT order on strings. -/
def strLe (s t : String) : Bool := lexLe s.data t.data

/-- `ORDER BY timestamp ASC` comparison on the TEXT column. -/
def tsLe (a b : Row) : Prop := strLe a.timestamp b.timestamp = true

instance : DecidableRel tsLe := fun a b =>
  inferInstanceAs (Decidable (strLe a.timestamp b.timestamp = true))

instance : IsTotal Row tsLe := ⟨fun a b => lexLe_total a.timestamp.data b.timestamp.data⟩

instance : IsTrans Row tsLe :=
  ⟨fun _ _ _ h1 h2 => lexLe_trans _ _ _ h1 h2⟩

/-- `ORDER BY timestamp DESC` comparison. -/
def tsGe (a b : Row) : Prop := strLe b.timestamp a.timestamp = true

instance : DecidableRel tsGe := fun a b =>
  inferInstanceAs (Decidable (strLe b.timestamp a.timestamp = true))

instance : IsTotal Row tsGe := ⟨fun a b => lexLe_total b.timestamp.data a.timestamp.data⟩

instance : IsTrans Row tsGe :=
  ⟨fun _ _ _ h1 h2 => lexLe_trans _ _ _ h2 h1⟩

/-- The count-and-conditionally-delete step of `add_login`: count the user's
rows and, if the count exceeds `max_records`, delete the `count - max_records`
oldest rows for that user (`ORDER BY timestamp ASC LIMIT k`, selected by id). -/
def evict (rows1 : List Row) (user : String) (maxRecords : Nat) : List Row :=
  let cnt := (rows1.filter fun r => decide (r.user = user)).length
  if maxRecords < cnt then
    let k := cnt - maxRecords
    let victims :=
      (((rows1.filter fun r => decide (r.user = user)).insertionSort tsLe).take k).map
        fun r => r.id
    rows1.filter fun r => decide (r.id ∉ victims)
  else rows1

/-- `DatabaseService.add_login`: insert the new row, then count and evict. -/
def add_login (db : DB) (user ip country city : String) (latitude longitude : ℚ)
    (timestamp : String) (maxRecords : Nat) : DB :=
  ⟨evict (db.rows ++ [⟨db.nextId, user, ip, country, city, latitude, longitude, timestamp⟩])
    user maxRecords, db.nextId + 1⟩

/-- `DatabaseService.get_recent_logins`: the user's rows,
`ORDER BY timestamp DESC LIMIT limit`. -/
def get_recent_logins (db : DB) (u : String) (limit : Nat) : List Row :=
  ((userRows db u).insertionSort tsGe).take limit

/-- `DatabaseService.get_last_login`: most recent login (limit 1). -/
def get_last_login (db : DB) (u : String) : Option Row :=
  (get_recent_logins db u 1).head?

/-- `DatabaseService.purge_database`: count of deleted rows and the emptied table. -/
def purge_database (db : DB) : Nat × DB :=
  (db.rows.length, ⟨[], db.nextId⟩)

/-- `DatabaseService.get_stats`: `(total_records, unique_users)`. -/
def get_stats (db : DB) : Nat × Nat :=
  (db.rows.length, ((db.rows.map fun r => r.user).dedup).length)

/-! ## The detection engine (`services/impossible_travel.py`) -/

/-- Resolved location of an IP (`schema.impossible_travel.LocationInfo`). -/
structure LocationInfo where
  country : String
  city : String
  latitude : ℚ
  longitude : ℚ
deriving DecidableEq

/-- The detector's configuration (environment variables, with their defaults). -/
structure Config where
  timeWindowMinutes : Nat
  maxRecordsPerUser : Nat
  minDistanceKm : ℚ
deriving DecidableEq

/-- Default configuration: 5-minute window, 10 records per user, 100 km. -/
def defaultConfig : Config := ⟨5, 10, 100⟩

/-- The verdict (`schema.impossible_travel.ImpossibleTravelResult`). -/
structure ImpossibleTravelResult where
  user : String
  current_ip : String
  current_location : LocationInfo
  current_timestamp : String
  impossible_travel_detected : Bool
  previous_login : Option Row
  distance_km : Option ℚ
  time_difference_minutes : Option ℚ
  message : String
deriving DecidableEq

/-- Round half to even (the rounding of Python's `round`). -/
def roundHalfEven (q : ℚ) : Int :=
  let f := ⌊q⌋
  let r := q - (f : ℚ)
  if r < 1 / 2 then f
  else if 1 / 2 < r then f + 1
  else if f % 2 = 0 then f else f + 1

/-- Python `round(x, 2)`. -/
def round2 (q : ℚ) : ℚ := ((roundHalfEven (q * 100) : Int) : ℚ) / 100

/-- Two-digit zero padding. -/
def pad2 (n : Nat) : String := if n < 10 then "0" ++ toString n else toString n

/-- Python `"{:.2f}".format(x)` on the modelled rational. -/
def fmt2 (q : ℚ) : String :=
  let n := roundHalfEven (q * 100)
  if n < 0 then "-" ++ toString (n.natAbs / 100) ++ "." ++ pad2 (n.natAbs % 100)
  else toString (n.toNat / 100) ++ "." ++ pad2 (n.toNat % 100)

/-- The external distance computation, `geodesic(prev_coords, cur_coords).kilometers`
from geopy: given `lat1 lon1 lat2 lon2` it either returns the distance in km or
raises (`Except.error`), e.g. on an out-of-range latitude. -/
def GeoFn : Type := ℚ → ℚ → ℚ → ℚ → Except String ℚ

/-- `ImpossibleTravelDetector.analyze`, as a function of the already-resolved
geolocation outcome (the geolocation service is external) and of the external
distance function `geod`.  Returns the verdict and the updated store, or
`Except.error` when the Python code would let an exception escape to the
caller.  The branch structure and branch order follow the source exactly:
geolocation failure, timestamp parse, last-login lookup, store write,
first-login, same-location, then the general case in which the distance is
computed OUTSIDE the `try` block and the time difference inside it. -/
def analyze (cfg : Config) (geod : GeoFn) (db : DB) (user ip timestamp_str : String)
    (current_location : Option LocationInfo) :
    Except String (ImpossibleTravelResult × DB) :=
  match current_location with
  | none =>
    .ok (⟨user, ip, ⟨"Unknown", "Unknown", 0, 0⟩, timestamp_str, false, none, none, none,
      "Failed to geolocate IP address"⟩, db)
  | some loc =>
    match parseTimestamp timestamp_str with
    | .error _ =>
      .ok (⟨user, ip, loc, timestamp_str, false, none, none, none,
        "Invalid timestamp format"⟩, db)
    | .ok current_ts =>
      let last := get_last_login db user
      let db1 := add_login db user ip loc.country loc.city loc.latitude loc.longitude
        timestamp_str cfg.maxRecordsPerUser
      match last with
      | none =>
        .ok (⟨user, ip, loc, timestamp_str, false, none, none, none,
          "First login for this user"⟩, db1)
      | some prev =>
        if prev.country = loc.country ∧ prev.city = loc.city then
          .ok (⟨user, ip, loc, timestamp_str, false, some prev, none, none,
            "Login from same location as previous login"⟩, db1)
        else
          match geod prev.latitude prev.longitude loc.latitude loc.longitude with
          | .error e => .error e
          | .ok distance_km =>
            match parseTimestamp prev.timestamp with
            | .error e =>
              .ok (⟨user, ip, loc, timestamp_str, false, some prev, none, none,
                "Error calculating travel metrics: " ++ e⟩, db1)
            | .ok prev_ts =>
              match pySub current_ts prev_ts with
              | .error e =>
                .ok (⟨user, ip, loc, timestamp_str, false, some prev, none, none,
                  "Error calculating travel metrics: " ++ e⟩, db1)
              | .ok diffMicros =>
                let time_diff_minutes : ℚ := |(diffMicros : ℚ)| / 60000000
                let within_time_window := decide (time_diff_minutes ≤ (cfg.timeWindowMinutes : ℚ))
                let different_location :=
                  decide (prev.country ≠ loc.country) || decide (cfg.minDistanceKm ≤ distance_km)
                let is_impossible := within_time_window && different_location
                let message :=
                  if is_impossible then
                    if prev.country ≠ loc.country then
                      "IMPOSSIBLE TRAVEL DETECTED: User logged in from " ++ prev.country ++
                        " and then from " ++ loc.country ++ " within " ++
                        fmt2 time_diff_minutes ++ " minutes (" ++ fmt2 distance_km ++ " km apart)"
                    else
                      "IMPOSSIBLE TRAVEL DETECTED: User logged in from " ++ prev.city ++ ", " ++
                        prev.country ++ " and then from " ++ loc.city ++ ", " ++ loc.country ++
                        " within " ++ fmt2 time_diff_minutes ++ " minutes (" ++
                        fmt2 distance_km ++ " km apart)"
                  else "Normal travel pattern"
                .ok (⟨user, ip, loc, timestamp_str, is_impossible, some prev,
                  some (round2 distance_km), some (round2 time_diff_minutes), message⟩, db1)

/-! ## Basic path lemmas -/

/-- A user with no stored rows has no last login. -/
theorem get_last_login_of_empty {db : DB} {u : String} (h : userRows db u = []) :
    get_last_login db u = none := by
  unfold get_last_login get_recent_logins
  rw [h]
  rfl

/-- The eviction step only removes rows. -/
theorem evict_sublist (rows1 : List Row) (user : String) (n : Nat) :
    (evict rows1 user n).Sublist rows1 := by
  unfold evict
  by_cases hc : n < (rows1.filter fun r => decide (r.user = user)).length
  · rw [if_pos hc]
    exact List.filter_sublist rows1
  · rw [if_neg hc]

/-- Every row of the store after `add_login` is either an old row or the
newly inserted one (which carries the original timestamp string). -/
theorem mem_add_login {db : DB} {user ip country city : String} {la lo : ℚ}
    {ts : String} {n : Nat} {r : Row}
    (h : r ∈ (add_login db user ip country city la lo ts n).rows) :
    r ∈ db.rows ∨ r = ⟨db.nextId, user, ip, country, city, la, lo, ts⟩ := by
  unfold add_login at h
  have h2 := (evict_sublist _ _ _).subset h
  rcases List.mem_append.mp h2 with h3 | h3
  · exact Or.inl h3
  · exact Or.inr (List.mem_singleton.mp h3)

/-- Claim C6: an unparseable timestamp yields `impossible_travel_detected=false`
with message "Invalid timestamp format" and leaves the store untouched, and a
geolocation failure yields `impossible_travel_detected=false` with message
"Failed to geolocate IP address" and likewise stores nothing. -/
theorem claim_C6_invalid_input_paths (cfg : Config) (geod : GeoFn) (db : DB)
    (user ip ts : String) (loc : LocationInfo) (e : String) :
    (parseTimestamp ts = .error e →
      analyze cfg geod db user ip ts (some loc) =
        .ok (⟨user, ip, loc, ts, false, none, none, none, "Invalid timestamp format"⟩, db)) ∧
    analyze cfg geod db user ip ts none =
      .ok (⟨user, ip, ⟨"Unknown", "Unknown", 0, 0⟩, ts, false, none, none, none,
        "Failed to geolocate IP address"⟩, db) := by
  constructor
  · intro h
    simp only [analyze, h]
  · rfl

/-- Witness for C6 at the spec's own example "not-a-date". -/
theorem claim_C6_invalid_input_paths_witness :
    analyze defaultConfig (fun _ _ _ _ => .ok 0) emptyDB "u" "1.2.3.4" "not-a-date"
      (some ⟨"DE", "Berlin", 52, 13⟩) =
      .ok (⟨"u", "1.2.3.4", ⟨"DE", "Berlin", 52, 13⟩, "not-a-date", false, none, none, none,
        "Invalid timestamp format"⟩, emptyDB) :=
  (claim_C6_invalid_input_paths defaultConfig (fun _ _ _ _ => .ok 0) emptyDB "u" "1.2.3.4"
    "not-a-date" ⟨"DE", "Berlin", 52, 13⟩ "Invalid isoformat string: not-a-date").1 rfl

/-- Claim C9: `purge_database` returns the prior total record count, empties
the table, after it `get_stats` reports `(0, 0)`, and a second purge returns 0. -/
theorem claim_C9_purge (db : DB) :
    (purge_database db).1 = (get_stats db).1 ∧
    (purge_database db).2.rows = [] ∧
    get_stats (purge_database db).2 = (0, 0) ∧
    (purge_database (purge_database db).2).1 = 0 :=
  ⟨rfl, rfl, rfl, rfl⟩

/-- Claim C5: when the previous login has the same country and city (exact
string equality), `analyze` reports no detection with message
"Login from same location as previous login", `previous_login` populated and
no distance/time fields, whatever the coordinates and timestamps are. -/
theorem claim_C5_same_location (cfg : Config) (geod : GeoFn) (db : DB)
    (user ip ts : String) (loc : LocationInfo) (prev : Row) (ct : PyDatetime)
    (hparse : parseTimestamp ts = .ok ct)
    (hlast : get_last_login db user = some prev)
    (hcountry : prev.country = loc.country) (hcity : prev.city = loc.city) :
    ∃ db1 : DB,
      analyze cfg geod db user ip ts (some loc) =
        .ok (⟨user, ip, loc, ts, false, some prev, none, none,
          "Login from same location as previous login"⟩, db1) := by
  refine ⟨add_login db user ip loc.country loc.city loc.latitude loc.longitude ts
    cfg.maxRecordsPerUser, ?_⟩
  simp only [analyze, hparse, hlast]
  rw [if_pos ⟨hcountry, hcity⟩]

/-- Witness for C5: same (country, city) at wildly different coordinates and
a 10-year gap still reports the same-location message. -/
theorem claim_C5_same_location_witness :
    ∃ db1 : DB,
      analyze defaultConfig (fun _ _ _ _ => .ok 20000) ⟨[⟨1, "u", "5.6.7.8", "FR", "Paris", 48, 2,
          "2014-01-01T10:00:00Z"⟩], 2⟩ "u" "1.2.3.4" "2024-01-01T10:00:00Z"
        (some ⟨"FR", "Paris", -48, -120⟩) =
        .ok (⟨"u", "1.2.3.4", ⟨"FR", "Paris", -48, -120⟩, "2024-01-01T10:00:00Z", false,
          some ⟨1, "u", "5.6.7.8", "FR", "Paris", 48, 2, "2014-01-01T10:00:00Z"⟩, none, none,
          "Login from same location as previous login"⟩, db1) :=
  claim_C5_same_location defaultConfig (fun _ _ _ _ => .ok 20000) _ "u" "1.2.3.4"
    "2024-01-01T10:00:00Z" ⟨"FR", "Paris", -48, -120⟩ _
    ⟨2024, 1, 1, 10, 0, 0, 0, some 0⟩ rfl rfl rfl rfl

/-- Claim C1: for a user with no stored rows, a resolvable location and a
parseable timestamp, `analyze` reports no detection with message exactly
"First login for this user", and afterwards `get_last_login` returns the
newly stored observation.  (Requires a cap of at least one record, as with
the default 10; with `max_records = 0` the fresh row would be evicted at once.) -/
theorem claim_C1_first_login (cfg : Config) (geod : GeoFn) (db : DB)
    (user ip ts : String) (loc : LocationInfo) (ct : PyDatetime)
    (hempty : userRows db user = [])
    (hparse : parseTimestamp ts = .ok ct)
    (hmax : 1 ≤ cfg.maxRecordsPerUser) :
    analyze cfg geod db user ip ts (some loc) =
      .ok (⟨user, ip, loc, ts, false, none, none, none, "First login for this user"⟩,
        ⟨db.rows ++ [⟨db.nextId, user, ip, loc.country, loc.city, loc.latitude,
          loc.longitude, ts⟩], db.nextId + 1⟩) ∧
    get_last_login ⟨db.rows ++ [⟨db.nextId, user, ip, loc.country, loc.city, loc.latitude,
        loc.longitude, ts⟩], db.nextId + 1⟩ user =
      some ⟨db.nextId, user, ip, loc.country, loc.city, loc.latitude, loc.longitude, ts⟩ := by
  have hfilter : ((db.rows ++ [(⟨db.nextId, user, ip, loc.country, loc.city, loc.latitude,
      loc.longitude, ts⟩ : Row)]).filter fun r => decide (r.user = user)) =
      [⟨db.nextId, user, ip, loc.country, loc.city, loc.latitude, loc.longitude, ts⟩] := by
    rw [List.filter_append]
    have h1 : db.rows.filter (fun r => decide (r.user = user)) = [] := hempty
    rw [h1]
    simp
  have hadd : add_login db user ip loc.country loc.city loc.latitude loc.longitude ts
      cfg.maxRecordsPerUser =
      ⟨db.rows ++ [⟨db.nextId, user, ip, loc.country, loc.city, loc.latitude,
        loc.longitude, ts⟩], db.nextId + 1⟩ := by
    simp only [add_login, evict]
    rw [hfilter]
    simp only [List.length_singleton]
    rw [if_neg (by omega)]
  constructor
  · simp only [analyze, hparse, get_last_login_of_empty hempty, hadd]
  · unfold get_last_login get_recent_logins userRows
    simp only [hfilter]
    rfl

/-- Witness for C1 on a fresh store. -/
theorem claim_C1_first_login_witness :
    analyze defaultConfig (fun _ _ _ _ => .ok 0) emptyDB "u" "1.2.3.4" "2024-01-01T10:00:00Z"
      (some ⟨"DE", "Berlin", 52, 13⟩) =
      .ok (⟨"u", "1.2.3.4", ⟨"DE", "Berlin", 52, 13⟩, "2024-01-01T10:00:00Z", false, none,
        none, none, "First login for this user"⟩,
        ⟨[⟨1, "u", "1.2.3.4", "DE", "Berlin", 52, 13, "2024-01-01T10:00:00Z"⟩], 2⟩) ∧
    get_last_login ⟨[⟨1, "u", "1.2.3.4", "DE", "Berlin", 52, 13, "2024-01-01T10:00:00Z"⟩], 2⟩
        "u" =
      some ⟨1, "u", "1.2.3.4", "DE", "Berlin", 52, 13, "2024-01-01T10:00:00Z"⟩ :=
  claim_C1_first_login defaultConfig (fun _ _ _ _ => .ok 0) emptyDB "u" "1.2.3.4"
    "2024-01-01T10:00:00Z" ⟨"DE", "Berlin", 52, 13⟩ ⟨2024, 1, 1, 10, 0, 0, 0, some 0⟩
    rfl rfl (by decide)

/-- Claim C2: in the general comparison case (a previous row exists, country or
city differs, the distance and time computations succeed), detection holds if
and only if the unrounded absolute time difference in minutes is at most the
configured window AND (the countries differ OR the unrounded distance reaches
the configured minimum); a country change counts as a different location even
at distance 0. -/
theorem claim_C2_general_case (cfg : Config) (geod : GeoFn) (db : DB)
    (user ip ts : String) (loc : LocationInfo) (prev : Row) (ct pt : PyDatetime)
    (d : ℚ) (Δ : Int)
    (hparse : parseTimestamp ts = .ok ct)
    (hlast : get_last_login db user = some prev)
    (hne : ¬(prev.country = loc.country ∧ prev.city = loc.city))
    (hgeo : geod prev.latitude prev.longitude loc.latitude loc.longitude = .ok d)
    (hpparse : parseTimestamp prev.timestamp = .ok pt)
    (hsub : pySub ct pt = .ok Δ) :
    ∃ res : ImpossibleTravelResult, ∃ db1 : DB,
      analyze cfg geod db user ip ts (some loc) = .ok (res, db1) ∧
      res.previous_login = some prev ∧
      res.distance_km = some (round2 d) ∧
      res.time_difference_minutes = some (round2 (|(Δ : ℚ)| / 60000000)) ∧
      (res.impossible_travel_detected = true ↔
        (|(Δ : ℚ)| / 60000000 ≤ (cfg.timeWindowMinutes : ℚ) ∧
          (prev.country ≠ loc.country ∨ cfg.minDistanceKm ≤ d))) := by
  simp only [analyze, hparse, hlast, if_neg hne, hgeo, hpparse, hsub]
  refine ⟨_, _, rfl, rfl, rfl, rfl, ?_⟩
  simp only [Bool.and_eq_true, Bool.or_eq_true, decide_eq_true_eq]

/-- Witness for C2: different countries, 50 km apart, 2 minutes apart, with the
default configuration — detected. -/
theorem claim_C2_general_case_witness :
    ∃ res : ImpossibleTravelResult, ∃ db1 : DB,
      analyze defaultConfig (fun _ _ _ _ => .ok 50)
          ⟨[⟨1, "u", "5.6.7.8", "FR", "Paris", 48, 2, "2024-01-01T10:00:00Z"⟩], 2⟩
          "u" "1.2.3.4" "2024-01-01T10:02:00Z"
          (some ⟨"DE", "Berlin", 52, 13⟩) = .ok (res, db1) ∧
      res.previous_login = some ⟨1, "u", "5.6.7.8", "FR", "Paris", 48, 2,
        "2024-01-01T10:00:00Z"⟩ ∧
      res.distance_km = some (round2 50) ∧
      res.time_difference_minutes = some (round2 (|((120000000 : Int) : ℚ)| / 60000000)) ∧
      (res.impossible_travel_detected = true ↔
        (|((120000000 : Int) : ℚ)| / 60000000 ≤ ((5 : Nat) : ℚ) ∧
          ("FR" ≠ "DE" ∨ (100 : ℚ) ≤ 50))) :=
  claim_C2_general_case defaultConfig (fun _ _ _ _ => .ok 50)
    ⟨[⟨1, "u", "5.6.7.8", "FR", "Paris", 48, 2, "2024-01-01T10:00:00Z"⟩], 2⟩
    "u" "1.2.3.4" "2024-01-01T10:02:00Z" ⟨"DE", "Berlin", 52, 13⟩
    ⟨1, "u", "5.6.7.8", "FR", "Paris", 48, 2, "2024-01-01T10:00:00Z"⟩
    ⟨2024, 1, 1, 10, 2, 0, 0, some 0⟩ ⟨2024, 1, 1, 10, 0, 0, 0, some 0⟩
    50 120000000 rfl rfl (by simp) rfl rfl rfl

/-- Counterexample to claim C4 as stated: an exception raised by the DISTANCE
computation is NOT absorbed — the `geodesic` call sits before the `try` block,
so `analyze` propagates it to its caller instead of returning a verdict. -/
theorem claim_C4_counterexample :
    analyze defaultConfig (fun _ _ _ _ => .error "boom")
      ⟨[⟨1, "u", "5.6.7.8", "FR", "Paris", 48, 2, "2024-01-01T10:00:00Z"⟩], 2⟩
      "u" "1.2.3.4" "2024-01-01T10:04:00Z" (some ⟨"DE", "Berlin", 52, 13⟩) =
      .error "boom" := rfl

/-- Claim C4 as amended: an exception raised inside the guarded block — parsing
the stored previous timestamp, or subtracting naive and aware datetimes — is
absorbed into a terminal verdict with `impossible_travel_detected=false`, a
message embedding the error text, `previous_login` populated and no
distance/time fields; only a distance-computation exception escapes. -/
theorem claim_C4_amended_absorbed (cfg : Config) (geod : GeoFn) (db : DB)
    (user ip ts : String) (loc : LocationInfo) (prev : Row) (ct : PyDatetime)
    (hparse : parseTimestamp ts = .ok ct)
    (hlast : get_last_login db user = some prev)
    (hne : ¬(prev.country = loc.country ∧ prev.city = loc.city)) :
    (∀ d e, geod prev.latitude prev.longitude loc.latitude loc.longitude = .ok d →
      parseTimestamp prev.timestamp = .error e →
      analyze cfg geod db user ip ts (some loc) =
        .ok (⟨user, ip, loc, ts, false, some prev, none, none,
          "Error calculating travel metrics: " ++ e⟩,
          add_login db user ip loc.country loc.city loc.latitude loc.longitude ts
            cfg.maxRecordsPerUser)) ∧
    (∀ d pt e, geod prev.latitude prev.longitude loc.latitude loc.longitude = .ok d →
      parseTimestamp prev.timestamp = .ok pt → pySub ct pt = .error e →
      analyze cfg geod db user ip ts (some loc) =
        .ok (⟨user, ip, loc, ts, false, some prev, none, none,
          "Error calculating travel metrics: " ++ e⟩,
          add_login db user ip loc.country loc.city loc.latitude loc.longitude ts
            cfg.maxRecordsPerUser)) := by
  constructor
  · intro d e hgeo hbad
    simp only [analyze, hparse, hlast, if_neg hne, hgeo, hbad]
  · intro d pt e hgeo hpp hsub
    simp only [analyze, hparse, hlast, if_neg hne, hgeo, hpp, hsub]

/-- Witness for the amended C4: a stored previous row with unparseable
timestamp "garbage" is absorbed into an error-message verdict. -/
theorem claim_C4_amended_absorbed_witness :
    analyze defaultConfig (fun _ _ _ _ => .ok 150)
      ⟨[⟨1, "u", "5.6.7.8", "FR", "Paris", 48, 2, "garbage"⟩], 2⟩
      "u" "1.2.3.4" "2024-01-01T10:04:00Z" (some ⟨"DE", "Berlin", 52, 13⟩) =
      .ok (⟨"u", "1.2.3.4", ⟨"DE", "Berlin", 52, 13⟩, "2024-01-01T10:04:00Z", false,
        some ⟨1, "u", "5.6.7.8", "FR", "Paris", 48, 2, "garbage"⟩, none, none,
        "Error calculating travel metrics: Invalid isoformat string: garbage"⟩,
        add_login ⟨[⟨1, "u", "5.6.7.8", "FR", "Paris", 48, 2, "garbage"⟩], 2⟩ "u" "1.2.3.4"
          "DE" "Berlin" 52 13 "2024-01-01T10:04:00Z" 10) :=
  (claim_C4_amended_absorbed defaultConfig (fun _ _ _ _ => .ok 150)
    ⟨[⟨1, "u", "5.6.7.8", "FR", "Paris", 48, 2, "garbage"⟩], 2⟩ "u" "1.2.3.4"
    "2024-01-01T10:04:00Z" ⟨"DE", "Berlin", 52, 13⟩
    ⟨1, "u", "5.6.7.8", "FR", "Paris", 48, 2, "garbage"⟩
    ⟨2024, 1, 1, 10, 4, 0, 0, some 0⟩ rfl rfl (by simp)).1 150
    "Invalid isoformat string: garbage" rfl rfl

/-- Claim C10: on every successful path of `analyze` the verdict echoes the
`user`, `ip` and raw `timestamp` arguments unchanged, and every row of the
resulting store is either an old row or carries the original timestamp string. -/
theorem claim_C10_frame (cfg : Config) (geod : GeoFn) (db : DB) (user ip ts : String)
    (current_location : Option LocationInfo) (res : ImpossibleTravelResult) (db1 : DB)
    (h : analyze cfg geod db user ip ts current_location = .ok (res, db1)) :
    res.user = user ∧ res.current_ip = ip ∧ res.current_timestamp = ts ∧
    ∀ r ∈ db1.rows, r ∈ db.rows ∨ r.timestamp = ts := by
  simp only [analyze] at h
  repeat' split at h
  all_goals first
    | (simp only [Except.ok.injEq, Prod.mk.injEq] at h
       obtain ⟨h1, h2⟩ := h
       subst h1
       subst h2
       refine ⟨rfl, rfl, rfl, fun r hr => ?_⟩
       first
         | exact Or.inl hr
         | (rcases mem_add_login hr with hm | hm
            · exact Or.inl hm
            · exact Or.inr (by rw [hm])))
    | exact absurd h (by simp)

/-- Witness for C10 on the geolocation-failure path. -/
theorem claim_C10_frame_witness :
    (⟨"u", "1.2.3.4", ⟨"Unknown", "Unknown", 0, 0⟩, "sometime", false, none, none, none,
        "Failed to geolocate IP address"⟩ : ImpossibleTravelResult).user = "u" ∧
    (⟨"u", "1.2.3.4", ⟨"Unknown", "Unknown", 0, 0⟩, "sometime", false, none, none, none,
        "Failed to geolocate IP address"⟩ : ImpossibleTravelResult).current_ip = "1.2.3.4" ∧
    (⟨"u", "1.2.3.4", ⟨"Unknown", "Unknown", 0, 0⟩, "sometime", false, none, none, none,
        "Failed to geolocate IP address"⟩ : ImpossibleTravelResult).current_timestamp =
      "sometime" :=
  have h := claim_C10_frame defaultConfig (fun _ _ _ _ => .ok 0) emptyDB "u" "1.2.3.4"
    "sometime" none
    ⟨"u", "1.2.3.4", ⟨"Unknown", "Unknown", 0, 0⟩, "sometime", false, none, none, none,
      "Failed to geolocate IP address"⟩ emptyDB rfl
  ⟨h.1, h.2.1, h.2.2.1⟩

/-! ## Well-formedness of the table and the arithmetic of eviction -/

/-- Table well-formedness: surrogate ids are distinct and below `nextId`.
This holds for `emptyDB` and is preserved by `add_login` (AUTOINCREMENT). -/
def WF (db : DB) : Prop :=
  ((db.rows.map fun r => r.id).Nodup) ∧ ∀ r ∈ db.rows, r.id < db.nextId

instance : DecidablePred WF := fun _ =>
  inferInstanceAs (Decidable (_ ∧ _))

theorem wf_emptyDB : WF emptyDB := by
  constructor <;> simp [emptyDB]

/-- Appending a fresh row with id `nextId` keeps the ids distinct. -/
theorem nodup_ids_insert (db : DB) (hwf : WF db) (row : Row) (hid : row.id = db.nextId) :
    ((db.rows ++ [row]).map fun r => r.id).Nodup := by
  rw [List.map_append, List.nodup_append]
  refine ⟨hwf.1, List.nodup_singleton _, ?_⟩
  intro a ha hb
  simp only [List.map_cons, List.map_nil, List.mem_singleton] at hb
  obtain ⟨r, hr, hrid⟩ := List.mem_map.mp ha
  have := hwf.2 r hr
  rw [hid] at hb
  omega

/-- Core behaviour of the eviction step on a table with distinct ids:
the target user's surviving row count is `min count maxRecords`; other users'
rows are untouched; and every deleted row belongs to the target user and has a
timestamp string lexicographically at most that of every surviving row of that
user. -/
theorem evict_spec (rows1 : List Row) (user : String) (N : Nat)
    (hn : (rows1.map fun r => r.id).Nodup) :
    ((evict rows1 user N).filter fun r => decide (r.user = user)).length
        = min ((rows1.filter fun r => decide (r.user = user)).length) N ∧
    (∀ u, u ≠ user → ((evict rows1 user N).filter fun r => decide (r.user = u))
        = rows1.filter fun r => decide (r.user = u)) ∧
    (∀ v ∈ rows1, v ∉ evict rows1 user N →
      v.user = user ∧
        ∀ r2 ∈ (evict rows1 user N).filter fun r => decide (r.user = user),
          strLe v.timestamp r2.timestamp = true) := by
  by_cases hover : N < (rows1.filter fun r => decide (r.user = user)).length
  case neg =>
    have hev : evict rows1 user N = rows1 := by
      simp only [evict]
      rw [if_neg hover]
    rw [hev]
    exact ⟨by omega, fun u _ => rfl, fun v hv hnv => absurd hv hnv⟩
  case pos =>
    have hev : evict rows1 user N =
        rows1.filter fun r => decide (r.id ∉
          ((((rows1.filter fun r => decide (r.user = user)).insertionSort tsLe).take
            ((rows1.filter fun r => decide (r.user = user)).length - N)).map
              fun r => r.id)) := by
      simp only [evict]
      rw [if_pos hover]
    set p : Row → Bool := (fun r => decide (r.user = user)) with hp
    set ur1 := rows1.filter p with hur1
    set cnt := ur1.length with hcnt
    set sorted := ur1.insertionSort tsLe with hsorted_def
    set k := cnt - N with hk
    set victims := (sorted.take k).map (fun r => r.id) with hvict
    set q : Row → Bool := (fun r => decide (r.id ∉ victims)) with hq
    have hperm : sorted.Perm ur1 := List.perm_insertionSort tsLe ur1
    have hsortedlen : sorted.length = cnt := by
      rw [hsorted_def, hcnt]
      simp
    have hnur1 : (ur1.map fun r => r.id).Nodup := by
      have hsub : ur1.Sublist rows1 := hur1 ▸ List.filter_sublist rows1
      exact List.Nodup.sublist (hsub.map fun r => r.id) hn
    have hnsorted : (sorted.map fun r => r.id).Nodup :=
      ((hperm.map fun r => r.id).nodup_iff).mpr hnur1
    have hsorted' : List.Sorted tsLe sorted := by
      rw [hsorted_def]
      exact List.sorted_insertionSort tsLe ur1
    have htd : sorted.take k ++ sorted.drop k = sorted := List.take_append_drop k sorted
    have hdisj : ((sorted.take k).map fun r => r.id).Disjoint
        ((sorted.drop k).map fun r => r.id) := by
      have h8 := hnsorted
      rw [← htd, List.map_append, List.nodup_append] at h8
      exact h8.2.2
    have htake_mem : ∀ y ∈ sorted.take k, y ∈ ur1 := fun y hy =>
      hperm.mem_iff.mp ((List.take_sublist k sorted).subset hy)
    have htake_user : ∀ y ∈ sorted.take k, y.user = user := by
      intro y hy
      have h2 : y ∈ rows1.filter p := hur1 ▸ htake_mem y hy
      have h3 := (List.mem_filter.mp h2).2
      rw [hp] at h3
      simpa using h3
    have hvictim_row : ∀ x ∈ rows1, x.id ∈ victims → x.user = user ∧ x ∈ sorted.take k := by
      intro x hx hxid
      rw [hvict] at hxid
      obtain ⟨y, hy, hyid⟩ := List.mem_map.mp hxid
      have hy1 : y ∈ rows1 := List.mem_of_mem_filter (hur1 ▸ htake_mem y hy)
      have hyx : y = x := List.inj_on_of_nodup_map hn hy1 hx hyid
      subst hyx
      exact ⟨htake_user y hy, hy⟩
    have hqtake : (sorted.take k).filter q = [] := by
      rw [List.filter_eq_nil_iff]
      intro x hx
      have h5 : x.id ∈ victims := by
        rw [hvict]
        exact List.mem_map_of_mem _ hx
      simp [hq, h5]
    have hqdrop : (sorted.drop k).filter q = sorted.drop k := by
      rw [List.filter_eq_self]
      intro x hx
      have hxid : x.id ∈ (sorted.drop k).map fun r => r.id := List.mem_map_of_mem _ hx
      have h6 : x.id ∉ victims := by
        rw [hvict]
        intro hmem
        exact hdisj hmem hxid
      simp [hq, h6]
    have h4 : sorted.filter q = sorted.drop k := by
      conv_lhs => rw [← htd]
      rw [List.filter_append, hqtake, hqdrop, List.nil_append]
    have hperm2 : (ur1.filter q).Perm (sorted.drop k) := by
      have h7 := (hperm.filter q).symm
      rw [h4] at h7
      exact h7
    have hfq : (rows1.filter q).filter p = ur1.filter q := by
      rw [List.filter_comm, ← hur1]
    refine ⟨?_, ?_, ?_⟩
    · rw [hev, hfq, hperm2.length_eq, List.length_drop, hsortedlen]
      omega
    · intro u hu
      rw [hev, List.filter_comm, List.filter_eq_self]
      intro x hx
      obtain ⟨hx1, hx2⟩ := List.mem_filter.mp hx
      rw [hq]
      simp only [decide_eq_true_eq]
      intro hxid
      have h5 := (hvictim_row x hx1 hxid).1
      rw [decide_eq_true_eq] at hx2
      exact hu (hx2 ▸ h5)
    · intro v hv hnv
      rw [hev] at hnv
      have hqv : ¬ (q v = true) := fun hqv => hnv (List.mem_filter.mpr ⟨hv, hqv⟩)
      have hvid : v.id ∈ victims := by
        by_contra h6
        exact hqv (by simp [hq, h6])
      obtain ⟨hvu, hvtake⟩ := hvictim_row v hv hvid
      refine ⟨hvu, ?_⟩
      intro r2 hr2
      rw [hev] at hr2
      rw [hfq] at hr2
      have hr2' : r2 ∈ sorted.drop k := hperm2.mem_iff.mp hr2
      have hpw : ∀ a ∈ sorted.take k, ∀ b ∈ sorted.drop k, tsLe a b := by
        have h7 := hsorted'
        conv at h7 => rw [← htd]
        exact (List.pairwise_append.mp h7).2.2
      exact hpw v hvtake r2 hr2'

/-- `add_login` preserves table well-formedness. -/
theorem wf_add_login (db : DB) (hwf : WF db) (user ip country city : String)
    (la lo : ℚ) (ts : String) (n : Nat) :
    WF (add_login db user ip country city la lo ts n) := by
  constructor
  · have h1 := nodup_ids_insert db hwf ⟨db.nextId, user, ip, country, city, la, lo, ts⟩ rfl
    exact List.Nodup.sublist ((evict_sublist _ _ _).map fun r => r.id) h1
  · intro r hr
    rcases mem_add_login hr with h | h
    · exact Nat.lt_succ_of_lt (hwf.2 r h)
    · rw [h]
      exact Nat.lt_succ_self _

/-- The target user's row count after `add_login` is exactly
`min (previous count + 1) maxRecords`. -/
theorem add_login_count_self (db : DB) (hwf : WF db) (user ip country city : String)
    (la lo : ℚ) (ts : String) (n : Nat) :
    (userRows (add_login db user ip country city la lo ts n) user).length
      = min ((userRows db user).length + 1) n := by
  have hn := nodup_ids_insert db hwf ⟨db.nextId, user, ip, country, city, la, lo, ts⟩ rfl
  have h := (evict_spec (db.rows ++ [⟨db.nextId, user, ip, country, city, la, lo, ts⟩])
    user n hn).1
  show ((evict _ user n).filter fun r => decide (r.user = user)).length = _
  rw [h]
  congr 1
  rw [List.filter_append]
  simp [userRows]

/-- Other users' row lists are untouched by `add_login`. -/
theorem add_login_count_other (db : DB) (hwf : WF db) (user ip country city : String)
    (la lo : ℚ) (ts : String) (n : Nat) (u : String) (hu : u ≠ user) :
    userRows (add_login db user ip country city la lo ts n) u = userRows db u := by
  have hn := nodup_ids_insert db hwf ⟨db.nextId, user, ip, country, city, la, lo, ts⟩ rfl
  have h := (evict_spec (db.rows ++ [⟨db.nextId, user, ip, country, city, la, lo, ts⟩])
    user n hn).2.1 u hu
  show ((evict _ user n).filter fun r => decide (r.user = u)) = _
  rw [h, List.filter_append]
  have h2 : (user = u) = False := eq_false fun h3 => hu h3.symm
  simp [userRows, h2]

/-- One `append` call (the argument tuple of `add_login`). -/
structure LoginCall where
  user : String
  ip : String
  country : String
  city : String
  latitude : ℚ
  longitude : ℚ
  timestamp : String

/-- Run a sequence of `add_login` calls with a fixed `max_records` against an
initially empty store. -/
def runCalls (n : Nat) (calls : List LoginCall) : DB :=
  calls.foldl
    (fun db c => add_login db c.user c.ip c.country c.city c.latitude c.longitude c.timestamp n)
    emptyDB

/-- Claim C3: for every sequence of `add_login` calls with a fixed
`max_records = n`, every user's stored row count is at most `n`.  The theorem
quantifies over all call lists, hence covers the state after each call of any
sequence (every prefix is itself a call list). -/
theorem claim_C3_cap_invariant (n : Nat) (calls : List LoginCall) (u : String) :
    (userRows (runCalls n calls) u).length ≤ n := by
  suffices h : ∀ (cs : List LoginCall) (db : DB), WF db →
      (∀ u, (userRows db u).length ≤ n) →
      WF (cs.foldl (fun (db : DB) (c : LoginCall) => add_login db c.user c.ip c.country
        c.city c.latitude c.longitude c.timestamp n) db) ∧
      ∀ u, (userRows (cs.foldl (fun (db : DB) (c : LoginCall) => add_login db c.user c.ip
        c.country c.city c.latitude c.longitude c.timestamp n) db) u).length ≤ n by
    exact (h calls emptyDB wf_emptyDB fun u => by simp [userRows, emptyDB]).2 u
  intro cs
  induction cs with
  | nil => exact fun db h1 h2 => ⟨h1, h2⟩
  | cons c rest ih =>
    intro db h1 h2
    simp only [List.foldl_cons]
    apply ih
    · exact wf_add_login db h1 _ _ _ _ _ _ _ _
    · intro u
      by_cases hu : u = c.user
      · subst hu
        rw [add_login_count_self db h1]
        omega
      · rw [add_login_count_other db h1 _ _ _ _ _ _ _ _ u hu]
        exact h2 u

/-- Counterexample to claim C7 as stated: `ORDER BY timestamp` compares the
raw timestamp TEXT lexicographically, not the parsed event instant.  Of the two
stored logins, the row stored with offset `-02:00` denotes 02:30 UTC and the
row stored with offset `+00:00` denotes 01:00 UTC, yet `get_last_login`
returns the latter because its string sorts higher. -/
theorem claim_C7_counterexample :
    get_last_login ⟨[⟨1, "u", "ip", "FR", "Paris", 0, 0, "2024-01-01T00:30:00-02:00"⟩,
        ⟨2, "u", "ip", "FR", "Paris", 0, 0, "2024-01-01T01:00:00+00:00"⟩], 3⟩ "u" =
      some ⟨2, "u", "ip", "FR", "Paris", 0, 0, "2024-01-01T01:00:00+00:00"⟩ ∧
    parseTimestamp "2024-01-01T00:30:00-02:00" =
      .ok ⟨2024, 1, 1, 0, 30, 0, 0, some (-7200000000)⟩ ∧
    parseTimestamp "2024-01-01T01:00:00+00:00" =
      .ok ⟨2024, 1, 1, 1, 0, 0, 0, some 0⟩ ∧
    instantMicros ⟨2024, 1, 1, 1, 0, 0, 0, some 0⟩ <
      instantMicros ⟨2024, 1, 1, 0, 30, 0, 0, some (-7200000000)⟩ := by
  refine ⟨by decide, rfl, rfl, by decide⟩

/-- Claim C7 as amended: `get_last_login` returns a stored observation of the
user whose raw timestamp string is maximal in lexicographic (byte) order
(`none` when the user has none); and the eviction inside `add_login` leaves
the target user with exactly `min (count+1) max_records` rows, every deleted
row belonging to that user with a timestamp string lexicographically at most
that of every surviving row of the user.  (The relative order of rows with
equal timestamp strings is left unspecified by the SQL; the statement is
independent of any tie-break.) -/
theorem claim_C7_amended_order (db : DB) (hwf : WF db) :
    (∀ u r, get_last_login db u = some r →
      r ∈ userRows db u ∧ ∀ r2 ∈ userRows db u, strLe r2.timestamp r.timestamp = true) ∧
    (∀ user ip country city la lo ts n,
      (userRows (add_login db user ip country city la lo ts n) user).length
        = min ((userRows db user).length + 1) n ∧
      ∀ v ∈ db.rows ++ [(⟨db.nextId, user, ip, country, city, la, lo, ts⟩ : Row)],
        v ∉ (add_login db user ip country city la lo ts n).rows →
        v.user = user ∧
          ∀ r2 ∈ userRows (add_login db user ip country city la lo ts n) user,
            strLe v.timestamp r2.timestamp = true) := by
  refine ⟨?_, ?_⟩
  · intro u r h
    unfold get_last_login get_recent_logins at h
    cases hs : (userRows db u).insertionSort tsGe with
    | nil =>
      rw [hs] at h
      simp at h
    | cons a t =>
      rw [hs] at h
      simp only [List.take_succ_cons, List.take_zero, List.head?_cons, Option.some.injEq] at h
      subst h
      constructor
      · have h2 : a ∈ (userRows db u).insertionSort tsGe := by
          rw [hs]
          exact List.mem_cons_self a t
        exact (List.mem_insertionSort tsGe).mp h2
      · intro r2 hr2
        have hr2s : r2 ∈ (userRows db u).insertionSort tsGe :=
          (List.mem_insertionSort tsGe).mpr hr2
        rw [hs] at hr2s
        have hsorted : List.Sorted tsGe ((userRows db u).insertionSort tsGe) :=
          List.sorted_insertionSort tsGe _
        rw [hs] at hsorted
        rcases List.mem_cons.mp hr2s with h2 | h2
        · rw [h2]
          exact lexLe_refl _
        · exact List.rel_of_sorted_cons hsorted r2 h2
  · intro user ip country city la lo ts n
    have hn := nodup_ids_insert db hwf ⟨db.nextId, user, ip, country, city, la, lo, ts⟩ rfl
    have hs := evict_spec (db.rows ++ [⟨db.nextId, user, ip, country, city, la, lo, ts⟩])
      user n hn
    refine ⟨add_login_count_self db hwf user ip country city la lo ts n, ?_⟩
    intro v hv hnv
    have hnv' : v ∉ evict (db.rows ++ [⟨db.nextId, user, ip, country, city, la, lo, ts⟩])
        user n := hnv
    have h3 := hs.2.2 v hv hnv'
    exact ⟨h3.1, fun r2 hr2 => h3.2 r2 hr2⟩

/-- Witness for the amended C7: on a two-row store the returned last login is a
stored row of the user and dominates the other row's timestamp string. -/
theorem claim_C7_amended_order_witness :
    (⟨2, "u", "ip", "DE", "Berlin", 1, 1, "2024-01-01T10:00:00Z"⟩ : Row) ∈
      userRows ⟨[⟨1, "u", "ip", "FR", "Paris", 0, 0, "2024-01-01T09:00:00Z"⟩,
        ⟨2, "u", "ip", "DE", "Berlin", 1, 1, "2024-01-01T10:00:00Z"⟩], 3⟩ "u" ∧
    strLe (⟨1, "u", "ip", "FR", "Paris", 0, 0, "2024-01-01T09:00:00Z"⟩ : Row).timestamp
      (⟨2, "u", "ip", "DE", "Berlin", 1, 1, "2024-01-01T10:00:00Z"⟩ : Row).timestamp = true :=
  have h := (claim_C7_amended_order ⟨[⟨1, "u", "ip", "FR", "Paris", 0, 0,
      "2024-01-01T09:00:00Z"⟩, ⟨2, "u", "ip", "DE", "Berlin", 1, 1,
      "2024-01-01T10:00:00Z"⟩], 3⟩ (by decide)).1 "u"
    ⟨2, "u", "ip", "DE", "Berlin", 1, 1, "2024-01-01T10:00:00Z"⟩ (by decide)
  ⟨h.1, h.2 ⟨1, "u", "ip", "FR", "Paris", 0, 0, "2024-01-01T09:00:00Z"⟩ (by decide)⟩

/-! ## Claim C8: the timestamp grammar against ISO-8601 -/

/-- A time-of-day body `HH[:MM[:SS[.fff|.ffffff]]]` with in-range components.
This is the common core of ISO-8601 extended time and Python's time grammar. -/
def timeBodyValid (cs : List Char) : Bool :=
  match parseHmsFrac cs with
  | some (hh, mm, ss, _) => decide (hh ≤ 23) && decide (mm ≤ 59) && decide (ss ≤ 59)
  | none => false

/-- An ISO-8601 numeric UTC offset `±HH:MM` with in-range components. -/
def tzSuffixValid : List Char → Bool
  | [sgn, h1, h2, ':', m1, m2] =>
    (sgn == '+' || sgn == '-') && digits2 h1 h2 && digits2 m1 m2 &&
      decide (val2 h1 h2 ≤ 23) && decide (val2 m1 m2 ≤ 59)
  | _ => false

/-- ISO-8601 extended time-of-day, optionally followed by `Z` or `±HH:MM`. -/
def isoTimeOk (tcs : List Char) : Bool :=
  timeBodyValid tcs ||
  (decide (tcs ≠ []) && (tcs.getLast? == some 'Z') && timeBodyValid tcs.dropLast) ||
  (decide (6 ≤ tcs.length) && tzSuffixValid (tcs.drop (tcs.length - 6)) &&
    timeBodyValid (tcs.take (tcs.length - 6)))

/-- Modelled from the spec: "accepts ISO-8601 with optional literal `Z` suffix
interpreted as UTC offset `+00:00`".  This is acceptance of ISO-8601
extended-format date-times on the conservative profile
`YYYY-MM-DD['T'HH[:MM[:SS[.fff|.ffffff]]]][Z|±HH:MM]` with valid calendar and
time components; in particular the date-time separator must be the literal
`T`, as ISO-8601 requires. -/
def iso8601Accepts (s : String) : Bool :=
  match parseDateCs (s.data.take 10) with
  | none => false
  | some _ =>
    match s.data.drop 10 with
    | [] => true
    | c :: tcs => c == 'T' && isoTimeOk tcs

/-- Counterexample to claim C8 as stated: `fromisoformat` never inspects the
separator character, so "2024-01-01#10:00:00" — not an ISO-8601 date-time,
since `#` is not the required `T` separator — is accepted rather than failing
with the malformed-timestamp outcome.  ("not-a-date" does fail.) -/
theorem claim_C8_counterexample :
    iso8601Accepts "2024-01-01#10:00:00" = false ∧
    exceptOk (parseTimestamp "2024-01-01#10:00:00") = true ∧
    exceptOk (parseTimestamp "not-a-date") = false :=
  ⟨rfl, rfl, rfl⟩

/-! ### Inclusion of the ISO-8601 profile in the code's grammar -/

theorem charIsDigit_ne {c : Char} (h : charIsDigit c = true) :
    c ≠ 'Z' ∧ c ≠ '+' ∧ c ≠ '-' := by
  refine ⟨?_, ?_, ?_⟩ <;> (rintro rfl; exact absurd h (by decide))

theorem replaceZchars_append (a b : List Char) :
    replaceZchars (a ++ b) = replaceZchars a ++ replaceZchars b := by
  induction a with
  | nil => rfl
  | cons c cs ih => simp [replaceZchars, ih]

theorem replaceZchars_of_noZ {a : List Char} (h : 'Z' ∉ a) : replaceZchars a = a := by
  induction a with
  | nil => rfl
  | cons c cs ih =>
    have hc : c ≠ 'Z' := fun h2 => h (h2 ▸ List.mem_cons_self c cs)
    simp only [replaceZchars, if_neg hc, List.singleton_append, List.cons.injEq, true_and]
    exact ih fun h2 => h (List.mem_cons_of_mem c h2)

/-- Every character of a successfully parsed date is a digit or `-`. -/
theorem parseDateCs_shape {cs : List Char} {v : Nat × Nat × Nat}
    (h : parseDateCs cs = some v) :
    cs.length = 10 ∧ ∀ c ∈ cs, charIsDigit c = true ∨ c = '-' := by
  unfold parseDateCs at h
  split at h
  case _ y1 y2 y3 y4 m1 m2 d1 d2 =>
    by_cases hd : (digits2 y1 y2 && digits2 y3 y4 && digits2 m1 m2 && digits2 d1 d2) = true
    · simp only [digits2, Bool.and_eq_true] at hd
      obtain ⟨⟨⟨⟨hy1, hy2⟩, hy3, hy4⟩, hm1, hm2⟩, hd1, hd2⟩ := hd
      refine ⟨rfl, ?_⟩
      intro c hc
      simp only [List.mem_cons, List.not_mem_nil, or_false] at hc
      rcases hc with rfl | rfl | rfl | rfl | rfl | rfl | rfl | rfl | rfl | rfl <;>
        first
          | exact Or.inl (by assumption)
          | exact Or.inr rfl
    · rw [if_neg hd] at h
      exact absurd h (by simp)
  case _ => exact absurd h (by simp)

/-- Every character of a successfully parsed time body is a digit, `:` or `.`. -/
theorem parseHmsFrac_chars {cs : List Char} {v : Nat × Nat × Nat × Nat}
    (h : parseHmsFrac cs = some v) :
    ∀ c ∈ cs, charIsDigit c = true ∨ c = ':' ∨ c = '.' := by
  unfold parseHmsFrac at h
  split at h
  case _ h1 h2 =>
    by_cases hd : digits2 h1 h2 = true
    · simp only [digits2, Bool.and_eq_true] at hd
      intro c hc
      simp only [List.mem_cons, List.not_mem_nil, or_false] at hc
      rcases hc with rfl | rfl
      · exact Or.inl hd.1
      · exact Or.inl hd.2
    · rw [if_neg hd] at h
      exact absurd h (by simp)
  case _ h1 h2 m1 m2 =>
    by_cases hd : (digits2 h1 h2 && digits2 m1 m2) = true
    · simp only [digits2, Bool.and_eq_true] at hd
      obtain ⟨⟨ha, hb⟩, hc1, hc2⟩ := hd
      intro c hc
      simp only [List.mem_cons, List.not_mem_nil, or_false] at hc
      rcases hc with rfl | rfl | rfl | rfl | rfl <;>
        first
          | exact Or.inl (by assumption)
          | exact Or.inr (Or.inl rfl)
    · rw [if_neg hd] at h
      exact absurd h (by simp)
  case _ h1 h2 m1 m2 s1 s2 =>
    by_cases hd : (digits2 h1 h2 && digits2 m1 m2 && digits2 s1 s2) = true
    · simp only [digits2, Bool.and_eq_true] at hd
      obtain ⟨⟨⟨ha, hb⟩, hc1, hc2⟩, he1, he2⟩ := hd
      intro c hc
      simp only [List.mem_cons, List.not_mem_nil, or_false] at hc
      rcases hc with rfl | rfl | rfl | rfl | rfl | rfl | rfl | rfl <;>
        first
          | exact Or.inl (by assumption)
          | exact Or.inr (Or.inl rfl)
    · rw [if_neg hd] at h
      exact absurd h (by simp)
  case _ h1 h2 m1 m2 s1 s2 fs =>
    by_cases hd : (digits2 h1 h2 && digits2 m1 m2 && digits2 s1 s2 && fs.all charIsDigit)
        = true
    · simp only [digits2, Bool.and_eq_true] at hd
      obtain ⟨⟨⟨⟨ha, hb⟩, hc1, hc2⟩, he1, he2⟩, hfs⟩ := hd
      intro c hc
      simp only [List.mem_cons] at hc
      rcases hc with rfl | rfl | rfl | rfl | rfl | rfl | rfl | rfl | rfl | hcf
      · exact Or.inl ha
      · exact Or.inl hb
      · exact Or.inr (Or.inl rfl)
      · exact Or.inl hc1
      · exact Or.inl hc2
      · exact Or.inr (Or.inl rfl)
      · exact Or.inl he1
      · exact Or.inl he2
      · exact Or.inr (Or.inr rfl)
      · exact Or.inl (List.all_eq_true.mp hfs c hcf)
    · rw [if_neg hd] at h
      exact absurd h (by simp)
  case _ => exact absurd h (by simp)

theorem splitSign_of_no_sign {cs : List Char} (h : ∀ c ∈ cs, c ≠ '+' ∧ c ≠ '-') :
    splitSign cs = (cs, none) := by
  induction cs with
  | nil => rfl
  | cons c cs ih =>
    have hc := h c (List.mem_cons_self c cs)
    simp only [splitSign,
      if_neg (show ¬(c = '+' ∨ c = '-') by rintro (h3 | h3) <;> [exact hc.1 h3; exact hc.2 h3]),
      ih fun x hx => h x (List.mem_cons_of_mem c hx)]

theorem splitSign_append {body : List Char} (h : ∀ c ∈ body, c ≠ '+' ∧ c ≠ '-')
    (sgn : Char) (hsgn : sgn = '+' ∨ sgn = '-') (rest : List Char) :
    splitSign (body ++ sgn :: rest) = (body, some (sgn, rest)) := by
  induction body with
  | nil =>
    simp only [List.nil_append, splitSign]
    rw [if_pos hsgn]
  | cons c cs ih =>
    have hc := h c (List.mem_cons_self c cs)
    have hrec := ih fun x hx => h x (List.mem_cons_of_mem c hx)
    simp only [List.cons_append, splitSign,
      if_neg (show ¬(c = '+' ∨ c = '-') by rintro (h3 | h3) <;> [exact hc.1 h3; exact hc.2 h3]),
      List.append_eq]
    rw [hrec]

theorem timeBodyValid_inv {cs : List Char} (h : timeBodyValid cs = true) :
    ∃ hh mm ss us, parseHmsFrac cs = some (hh, mm, ss, us) ∧
      hh ≤ 23 ∧ mm ≤ 59 ∧ ss ≤ 59 := by
  unfold timeBodyValid at h
  cases hp : parseHmsFrac cs with
  | none =>
    rw [hp] at h
    exact absurd h (by simp)
  | some v =>
    obtain ⟨hh, mm, ss, us⟩ := v
    rw [hp] at h
    simp only [Bool.and_eq_true, decide_eq_true_eq] at h
    exact ⟨hh, mm, ss, us, rfl, h.1.1, h.1.2, h.2⟩

/-- A valid time body contains no `Z` and no sign character. -/
theorem timeBody_noZ_nosign {cs : List Char} (hb : timeBodyValid cs = true) :
    ('Z' ∉ cs) ∧ ∀ c ∈ cs, c ≠ '+' ∧ c ≠ '-' := by
  obtain ⟨hh, mm, ss, us, hp, _, _, _⟩ := timeBodyValid_inv hb
  have hchars := parseHmsFrac_chars hp
  constructor
  · intro hz
    rcases hchars 'Z' hz with hc | hc | hc <;> exact absurd hc (by decide)
  · intro c hc
    rcases hchars c hc with h1 | h1 | h1
    · exact ⟨(charIsDigit_ne h1).2.1, (charIsDigit_ne h1).2.2⟩
    · subst h1
      exact ⟨by decide, by decide⟩
    · subst h1
      exact ⟨by decide, by decide⟩

theorem tzSuffixValid_inv {cs : List Char} (h : tzSuffixValid cs = true) :
    ∃ sgn a b c d, cs = [sgn, a, b, ':', c, d] ∧ (sgn = '+' ∨ sgn = '-') ∧
      digits2 a b = true ∧ digits2 c d = true ∧ val2 a b ≤ 23 ∧ val2 c d ≤ 59 := by
  unfold tzSuffixValid at h
  split at h
  case _ sgn a b c d =>
    simp only [Bool.and_eq_true, Bool.or_eq_true, beq_iff_eq, decide_eq_true_eq] at h
    obtain ⟨⟨⟨⟨hsgn, hab⟩, hcd⟩, h23⟩, h59⟩ := h
    exact ⟨sgn, a, b, c, d, rfl, hsgn, hab, hcd, h23, h59⟩
  case _ => exact absurd h (by simp)

theorem pyParseTime_no_tz {body : List Char} (hb : timeBodyValid body = true) :
    (pyParseTime body).isSome = true := by
  obtain ⟨hh, mm, ss, us, hp, r1, r2, r3⟩ := timeBodyValid_inv hb
  have hnosign := (timeBody_noZ_nosign hb).2
  simp only [pyParseTime, splitSign_of_no_sign hnosign, hp]
  rw [if_pos ⟨r1, r2, r3⟩]
  rfl

theorem pyParseTime_tz {body : List Char} (hb : timeBodyValid body = true)
    (sgn a b c d : Char) (hsgn : sgn = '+' ∨ sgn = '-')
    (hab : digits2 a b = true) (hcd : digits2 c d = true)
    (h23 : val2 a b ≤ 23) (h59 : val2 c d ≤ 59) :
    (pyParseTime (body ++ sgn :: [a, b, ':', c, d])).isSome = true := by
  obtain ⟨hh, mm, ss, us, hp, r1, r2, r3⟩ := timeBodyValid_inv hb
  have hnosign := (timeBody_noZ_nosign hb).2
  have htzparse : parseHmsFrac [a, b, ':', c, d] = some (val2 a b, val2 c d, 0, 0) := by
    show (if (digits2 a b && digits2 c d) = true then some (val2 a b, val2 c d, 0, 0)
        else none) = some (val2 a b, val2 c d, 0, 0)
    rw [if_pos (by rw [Bool.and_eq_true]; exact ⟨hab, hcd⟩)]
  simp only [pyParseTime, splitSign_append hnosign sgn hsgn, hp, htzparse]
  rw [if_pos ⟨r1, r2, r3⟩]
  rw [if_pos (show ([a, b, ':', c, d] : List Char).length = 5 ∨
      ([a, b, ':', c, d] : List Char).length = 8 ∨
      ([a, b, ':', c, d] : List Char).length = 15 from Or.inl rfl)]
  split
  · rfl
  · rename_i hcond
    exfalso
    apply hcond
    push_cast
    omega

/-- Sufficient conditions for `pyFromIso` acceptance, in terms of a
date/separator/time decomposition of the input characters. -/
theorem pyFromIso_ok {w : String} {d10 rest : List Char} {y m d : Nat}
    (hw : w.data = d10 ++ rest) (hlen : d10.length = 10)
    (hdate : parseDateCs d10 = some (y, m, d))
    (hrest : rest = [] ∨ ∃ sep tcs, rest = sep :: tcs ∧ (pyParseTime tcs).isSome = true) :
    exceptOk (pyFromIso w) = true := by
  have htake : w.data.take 10 = d10 := by
    rw [hw, ← hlen, List.take_left]
  have hdrop : w.data.drop 10 = rest := by
    rw [hw, ← hlen, List.drop_left]
  rcases hrest with rfl | ⟨sep, tcs, ht, hsome⟩
  · simp only [pyFromIso, htake, hdate, hdrop]
    rfl
  · cases ht2 : pyParseTime tcs with
    | none =>
      rw [ht2] at hsome
      exact absurd hsome (by simp)
    | some t =>
      obtain ⟨th, tmi, tss, tus, toff⟩ := t
      rw [ht] at hdrop
      simp only [pyFromIso, htake, hdate, hdrop, ht2]
      rfl

/-- Claim C8 as amended (positive half): every string of the ISO-8601 profile
`YYYY-MM-DD['T'HH[:MM[:SS[.fff|.ffffff]]]][Z|±HH:MM]` — with `Z` interpreted
as offset `+00:00` — is accepted by the code's timestamp parsing.  The
counterexample shows the converse fails: the separator position is never
inspected, so acceptance is strictly larger than ISO-8601. -/
theorem claim_C8_amended_accepts_iso (s : String) (h : iso8601Accepts s = true) :
    exceptOk (parseTimestamp s) = true := by
  unfold iso8601Accepts at h
  cases hd : parseDateCs (s.data.take 10) with
  | none =>
    rw [hd] at h
    exact absurd h (by simp)
  | some ymd =>
    obtain ⟨y, m, d⟩ := ymd
    rw [hd] at h
    obtain ⟨hdlen, hdchars⟩ := parseDateCs_shape hd
    have hdnoZ : 'Z' ∉ s.data.take 10 := by
      intro hz
      rcases hdchars 'Z' hz with hc | hc <;> exact absurd hc (by decide)
    have hsplit : s.data = s.data.take 10 ++ s.data.drop 10 :=
      (List.take_append_drop 10 s.data).symm
    unfold parseTimestamp
    cases he : s.data.drop 10 with
    | nil =>
      have hwz : (replaceZ s).data = s.data.take 10 := by
        show replaceZchars s.data = _
        conv_lhs => rw [hsplit, he]
        rw [List.append_nil, replaceZchars_of_noZ hdnoZ]
      exact pyFromIso_ok (by rw [hwz, List.append_nil]) hdlen hd (Or.inl rfl)
    | cons sep tcs =>
      rw [he] at h
      rw [Bool.and_eq_true] at h
      obtain ⟨hsep, htime⟩ := h
      have hsepT : sep = 'T' := by simpa using hsep
      subst hsepT
      unfold isoTimeOk at htime
      simp only [Bool.or_eq_true] at htime
      rcases htime with (h1 | h1) | h1
      · -- no offset
        obtain ⟨hnoZ, _⟩ := timeBody_noZ_nosign h1
        have ht := pyParseTime_no_tz h1
        have hwz : (replaceZ s).data = s.data.take 10 ++ 'T' :: tcs := by
          show replaceZchars s.data = _
          conv_lhs => rw [hsplit, he]
          rw [replaceZchars_append, replaceZchars_of_noZ hdnoZ,
            show replaceZchars ('T' :: tcs) = 'T' :: replaceZchars tcs from by
              simp [replaceZchars],
            replaceZchars_of_noZ hnoZ]
        exact pyFromIso_ok hwz hdlen hd (Or.inr ⟨'T', tcs, rfl, ht⟩)
      · -- literal Z suffix
        simp only [Bool.and_eq_true, decide_eq_true_eq, beq_iff_eq] at h1
        obtain ⟨⟨hne, hlast⟩, hbody⟩ := h1
        obtain ⟨ys, hys⟩ := List.getLast?_eq_some_iff.mp hlast
        have hdropl : tcs.dropLast = ys := by
          rw [hys, List.dropLast_concat]
        rw [hdropl] at hbody
        obtain ⟨hnoZ, _⟩ := timeBody_noZ_nosign hbody
        have ht := pyParseTime_tz hbody '+' '0' '0' '0' '0' (Or.inl rfl)
          (by decide) (by decide) (by decide) (by decide)
        have hwz : (replaceZ s).data =
            s.data.take 10 ++ 'T' :: (ys ++ '+' :: ['0', '0', ':', '0', '0']) := by
          show replaceZchars s.data = _
          conv_lhs => rw [hsplit, he, hys]
          rw [replaceZchars_append, replaceZchars_of_noZ hdnoZ,
            show ('T' :: (ys ++ ['Z'])) = ('T' :: ys) ++ ['Z'] from by simp,
            replaceZchars_append,
            show replaceZchars ('T' :: ys) = 'T' :: replaceZchars ys from by
              simp [replaceZchars],
            replaceZchars_of_noZ hnoZ,
            show replaceZchars ['Z'] = ['+', '0', '0', ':', '0', '0'] from rfl]
          simp
        exact pyFromIso_ok hwz hdlen hd (Or.inr ⟨'T', _, rfl, ht⟩)
      · -- numeric offset
        simp only [Bool.and_eq_true, decide_eq_true_eq] at h1
        obtain ⟨⟨hlen6, htz⟩, hbody⟩ := h1
        obtain ⟨sgn, a, b, c, d2, hdropeq, hsgn, hab, hcd, h23, h59⟩ := tzSuffixValid_inv htz
        obtain ⟨hnoZb, _⟩ := timeBody_noZ_nosign hbody
        have hnoZtz : 'Z' ∉ [sgn, a, b, ':', c, d2] := by
          intro hz
          simp only [List.mem_cons, List.not_mem_nil, or_false] at hz
          simp only [digits2, Bool.and_eq_true] at hab hcd
          rcases hz with hz | hz | hz | hz | hz | hz
          · rcases hsgn with rfl | rfl <;> exact absurd hz (by decide)
          · exact (charIsDigit_ne (hz ▸ hab.1)).1 rfl
          · exact (charIsDigit_ne (hz ▸ hab.2)).1 rfl
          · exact absurd hz (by decide)
          · exact (charIsDigit_ne (hz ▸ hcd.1)).1 rfl
          · exact (charIsDigit_ne (hz ▸ hcd.2)).1 rfl
        have ht := pyParseTime_tz hbody sgn a b c d2 hsgn hab hcd h23 h59
        have hwz : (replaceZ s).data =
            s.data.take 10 ++ 'T' :: (tcs.take (tcs.length - 6) ++ sgn :: [a, b, ':', c, d2]) := by
          show replaceZchars s.data = _
          conv_lhs => rw [hsplit, he]
          conv_lhs =>
            rw [show tcs = tcs.take (tcs.length - 6) ++ tcs.drop (tcs.length - 6) from
              (List.take_append_drop _ _).symm]
          rw [hdropeq, replaceZchars_append, replaceZchars_of_noZ hdnoZ,
            show ('T' :: (tcs.take (tcs.length - 6) ++ [sgn, a, b, ':', c, d2])) =
              ('T' :: tcs.take (tcs.length - 6)) ++ [sgn, a, b, ':', c, d2] from by simp,
            replaceZchars_append,
            show replaceZchars ('T' :: tcs.take (tcs.length - 6)) =
              'T' :: replaceZchars (tcs.take (tcs.length - 6)) from by simp [replaceZchars],
            replaceZchars_of_noZ hnoZb, replaceZchars_of_noZ hnoZtz]
        exact pyFromIso_ok hwz hdlen hd (Or.inr ⟨'T', _, rfl, ht⟩)

/-- Witness for the amended C8 at a canonical `Z`-suffixed timestamp. -/
theorem claim_C8_amended_accepts_iso_witness :
    iso8601Accepts "2024-01-01T10:00:00Z" = true ∧
    exceptOk (parseTimestamp "2024-01-01T10:00:00Z") = true :=
  ⟨by decide, claim_C8_amended_accepts_iso "2024-01-01T10:00:00Z" (by decide)⟩

end OfficeTravel
